import Mathlib

/-!
Shallow embedding of `src/Components/ThirdParty/release_git_tagger.py`.

The script talks to the outside world through three primitives:
  * the filesystem (`Path.exists`),
  * external process execution (`subprocess.run` of a git command in a
    working directory, yielding exit status / stdout / stderr),
  * `print` to the console.

We model the first two by an `Env` record: `fs` says which paths exist and
`git` gives, for every command string and working directory, the
`CommandOutcome` the process would produce.  Every observable action
(a command actually executed, a line printed) is recorded in an event
trace, and the script's `status` defaultdict is modelled as an
append-ordered list of (bucket key, repo path) pairs.  Python exceptions
become `Except String`.

Python string operations (`strip`, `splitlines`, substring `in`) are
re-implemented by structural recursion over the character list of the
string, so that every definition evaluates by kernel reduction.
-/

/-! ## Python string primitives -/

/-- Whitespace as Python's `str.strip` removes it (the characters that
occur in this script's process outputs). -/
def isPySpace (c : Char) : Bool := c = ' ' || c = '\t' || c = '\n' || c = '\r'

/-- Python `str.strip()`: drop leading and trailing whitespace. -/
def pyStrip (s : String) : String :=
  String.mk (((s.data.dropWhile isPySpace).reverse.dropWhile isPySpace).reverse)

/-- Split a character list at every occurrence of `sep`. -/
def splitCharsOn (sep : Char) : List Char → List Char → List (List Char)
  | [], acc => [acc.reverse]
  | c :: rest, acc =>
    if c = sep then acc.reverse :: splitCharsOn sep rest []
    else splitCharsOn sep rest (c :: acc)

/-- Python `str.splitlines` on the (already stripped) outputs the script
feeds it: the empty string has no lines, otherwise split at newlines. -/
def pySplitlines (s : String) : List String :=
  if s.data = [] then [] else (splitCharsOn '\n' s.data []).map String.mk

/-- Does `needle` occur at the head of `hay`? -/
def subAt : List Char → List Char → Bool
  | _, [] => true
  | [], _ :: _ => false
  | c :: hs, d :: ns => c = d && subAt hs ns

/-- Does `needle` occur anywhere in `hay`? -/
def listContainsSub (hay needle : List Char) : Bool :=
  match hay with
  | [] => needle.isEmpty
  | _ :: rest => subAt hay needle || listContainsSub rest needle

/-- Python's substring test `needle in hay` (used on the raw
`git branch -r` output at line 149 of the script). -/
def strContains (hay needle : String) : Bool :=
  listContainsSub hay.data needle.data

/-- Python `str.startswith`. -/
def pyStartsWith (s pre : String) : Bool := subAt s.data pre.data

/-! ## Data model and external world -/

/-- Outcome of one external process invocation: exit status plus captured
stdout and stderr (fields of Python's `subprocess.CompletedProcess`). -/
structure CommandOutcome where
  returncode : Int
  stdout : String
  stderr : String
deriving DecidableEq, Repr

/-- Observable actions of the script: a command actually executed in a
working directory, or a line printed to the console. -/
inductive Event where
  | cmdExec : String → String → Event
  | log : String → Event
deriving DecidableEq, Repr

/-- Mutable run state: the console/exec trace and the `status` buckets
(`defaultdict(list)` flattened to an append-ordered association list). -/
structure RunState where
  events : List Event
  status : List (String × String)
deriving DecidableEq, Repr

def emit (st : RunState) (e : Event) : RunState :=
  { st with events := st.events ++ [e] }

def addStatus (st : RunState) (k v : String) : RunState :=
  { st with status := st.status ++ [(k, v)] }

/-- The external world: which paths exist, and what each (command,
working-directory) invocation returns. -/
structure Env where
  fs : String → Bool
  git : String → String → CommandOutcome

/-- One repository entry of the INI-derived dict: recognized fields
`name`, `git`, `folder`.  `data.get(k)` yielding `None` and an empty
string are both "falsy" in the script, so a missing field is modelled as
`""`. -/
structure RepoData where
  name : String
  git : String
  folder : String
deriving DecidableEq, Repr

/-- `root_dir / folder` of `pathlib`. -/
def joinPath (root folder : String) : String := root ++ "/" ++ folder

/-! ## Command runner (script lines 34-52) -/

/-- `run(cmd, cwd)` (line 34): run the command; raise
`RuntimeError(f"Command failed: {cmd}\n{result.stderr}")` when the exit
status is non-zero, otherwise return `result.stdout.strip()`. -/
def run (cmd : String) (result : CommandOutcome) : Except String String :=
  if result.returncode ≠ 0 then
    Except.error ("Command failed: " ++ cmd ++ "\n" ++ result.stderr)
  else
    Except.ok (pyStrip result.stdout)

/-- `run` as the script calls it: the process really executes (recorded as
a `cmdExec` event), then the outcome is inspected. -/
def runReal (env : Env) (cmd cwd : String) (st : RunState) :
    Except String String × RunState :=
  (run cmd (env.git cmd cwd), emit st (Event.cmdExec cmd cwd))

/-- `runCmd(cmd, cwd, dry_run)` (line 48): in dry-run mode only print
`[DRY-RUN] {cmd}` and return `""`; otherwise delegate to `run`. -/
def runCmd (env : Env) (cmd cwd : String) (dry_run : Bool) (st : RunState) :
    Except String String × RunState :=
  if dry_run then
    (Except.ok "", emit st (Event.log ("[DRY-RUN] " ++ cmd)))
  else
    runReal env cmd cwd st

/-! ## Fast-forward synchronizer (script lines 103-193) -/

/-- The body of the repository loop of `fast_forward_from_upstream`
(lines 116-188), for one `(section, data)` entry.  Returns the Python
control flow: `Except.error` when a `RuntimeError` escapes (which in the
script aborts the whole loop), `Except.ok` when the iteration completes
(possibly via `continue`). -/
def syncRepo (env : Env) (root_dir : String) (data : RepoData)
    (dry_run : Bool) (st : RunState) : Except String Unit × RunState :=
  let repo_path := joinPath root_dir data.folder
  if env.fs repo_path then
    let st := emit st (Event.log ("=== " ++ data.name ++ " @ " ++ repo_path ++ " ==="))
    match runCmd env "git remote" repo_path false st with
    | (Except.error e, st) => (Except.error e, st)
    | (Except.ok remotesOut, st) =>
      if (pySplitlines remotesOut).contains "upstream" then
        match runCmd env "git rev-parse --abbrev-ref HEAD" repo_path false st with
        | (Except.error e, st) => (Except.error e, st)
        | (Except.ok branchOut, st) =>
          let current_branch := if branchOut = "" then "<dry-run-branch>" else branchOut
          match runCmd env "git fetch upstream" repo_path false st with
          | (Except.error e, st) => (Except.error e, st)
          | (Except.ok _, st) =>
            let upstream_branch := "upstream/" ++ current_branch
            match runCmd env "git branch -r" repo_path false st with
            | (Except.error e, st) => (Except.error e, st)
            | (Except.ok upstream_heads, st) =>
              if strContains upstream_heads upstream_branch then
                match runCmd env ("git merge-base HEAD " ++ upstream_branch) repo_path false st with
                | (Except.error e, st) => (Except.error e, st)
                | (Except.ok merge_base, st) =>
                  match runCmd env "git rev-parse HEAD" repo_path false st with
                  | (Except.error e, st) => (Except.error e, st)
                  | (Except.ok head_commit, st) =>
                    match runCmd env ("git rev-parse " ++ upstream_branch) repo_path false st with
                    | (Except.error e, st) => (Except.error e, st)
                    | (Except.ok upstream_commit, st) =>
                      if merge_base = head_commit then
                        let st := emit st (Event.log "Fast-forward possible -> merging upstream into local")
                        match runCmd env ("git merge --ff-only " ++ upstream_branch) repo_path dry_run st with
                        | (Except.error e, st) => (Except.error e, st)
                        | (Except.ok _, st) =>
                          match runCmd env ("git push origin " ++ current_branch) repo_path dry_run st with
                          | (Except.error e, st) => (Except.error e, st)
                          | (Except.ok _, st) =>
                            let st := emit st (Event.log "Fast-forwarded and pushed to origin.")
                            (Except.ok (), addStatus st "Fast-forwarded" repo_path)
                      else if merge_base = upstream_commit then
                        let st := addStatus st "ahead" repo_path
                        (Except.ok (), emit st (Event.log "Local branch is ahead of upstream -> cannot fast-forward."))
                      else
                        let st := addStatus st "diverged" repo_path
                        (Except.ok (), emit st (Event.log "Local and upstream have diverged -> manual merge/rebase required."))
              else
                let st := emit st (Event.log ("Upstream branch does not exist."))
                (Except.ok (), addStatus st "no_upstream_branch" repo_path)
      else
        let st := emit st (Event.log "No upstream remote -> skipping.")
        (Except.ok (), addStatus st "no_upstream" repo_path)
  else
    (Except.ok (), emit st (Event.log ("[SKIP] " ++ data.name ++ ": folder not found " ++ repo_path)))

/-- The repository loop of `fast_forward_from_upstream`: visit the entries
in order; an escaping error stops the loop. -/
def syncRepos (env : Env) (root_dir : String) (dry_run : Bool) :
    List (String × RepoData) → RunState → Except String Unit × RunState
  | [], st => (Except.ok (), st)
  | (_, data) :: rest, st =>
    match syncRepo env root_dir data dry_run st with
    | (Except.error e, st) => (Except.error e, st)
    | (Except.ok _, st) => syncRepos env root_dir dry_run rest st

/-- The keys of the `status` defaultdict in insertion order (a Python dict
keeps the order in which keys were first added). -/
def firstKeys (l : List (String × String)) : List String :=
  List.foldl (fun acc p => if acc.contains p.1 then acc else acc ++ [p.1]) [] l

/-- The entries of one bucket, in append order. -/
def bucketOf (l : List (String × String)) (k : String) : List String :=
  (l.filter (fun p => p.1 = k)).map Prod.snd

/-- The status rendering at the end of `fast_forward_from_upstream`
(lines 190-193). -/
def renderStatus (st : RunState) : RunState :=
  List.foldl
    (fun acc k =>
      let acc := emit acc (Event.log ("=== Status: " ++ k ++ " ==="))
      List.foldl (fun a r => emit a (Event.log r)) acc (bucketOf st.status k))
    st (firstKeys st.status)

/-- `fast_forward_from_upstream(repos, root_dir, dry_run)` (line 103):
run the repository loop from an empty state, then render the status
summary.  A `RuntimeError` escaping from any iteration propagates out of
the whole function, so the summary is only rendered on success. -/
def fast_forward_from_upstream (env : Env) (repos : List (String × RepoData))
    (root_dir : String) (dry_run : Bool) : Except String Unit × RunState :=
  match syncRepos env root_dir dry_run repos ⟨[], []⟩ with
  | (Except.error e, st) => (Except.error e, st)
  | (Except.ok _, st) => (Except.ok (), renderStatus st)

/-! ## Release tagger (script lines 55-100) -/

/-- The body of the repository loop of `tag_release_repos` (lines 68-94)
for one `(section, data)` entry.  Any raised exception (missing field,
missing folder, failed command) is `Except.error` and aborts the whole
run. -/
def tagRepo (env : Env) (root_dir tag_name : String) (sec : String)
    (data : RepoData) (dry_run : Bool) (st : RunState) :
    Except String Unit × RunState :=
  if data.name = "" ∨ data.git = "" ∨ data.folder = "" then
    (Except.error (sec ++ ": missing input"), st)
  else
    let repo_path := joinPath root_dir data.folder
    if env.fs repo_path then
      match runReal env "git rev-parse --abbrev-ref HEAD" repo_path st with
      | (Except.error e, st) => (Except.error e, st)
      | (Except.ok current_branch, st) =>
        let st := emit st (Event.log (data.name ++ ": " ++ data.git ++ " @ " ++ data.folder ++ " @ " ++ current_branch))
        match runCmd env ("git tag \"" ++ tag_name ++ "\"") repo_path dry_run st with
        | (Except.error e, st) => (Except.error e, st)
        | (Except.ok _, st) =>
          match runCmd env ("git push origin \"" ++ tag_name ++ "\"") repo_path dry_run st with
          | (Except.error e, st) => (Except.error e, st)
          | (Except.ok _, st) => (Except.ok (), st)
    else
      (Except.error ("[SKIP] " ++ data.name ++ ": folder not found (" ++ repo_path ++ ")"), st)

/-- The repository loop of `tag_release_repos`. -/
def tagRepos (env : Env) (root_dir tag_name : String) (dry_run : Bool) :
    List (String × RepoData) → RunState → Except String Unit × RunState
  | [], st => (Except.ok (), st)
  | (sec, data) :: rest, st =>
    match tagRepo env root_dir tag_name sec data dry_run st with
    | (Except.error e, st) => (Except.error e, st)
    | (Except.ok _, st) => tagRepos env root_dir tag_name dry_run rest st

/-- `tag_release_repos(repos, root_dir, tag_name, dry_run)` (line 55). -/
def tag_release_repos (env : Env) (repos : List (String × RepoData))
    (root_dir tag_name : String) (dry_run : Bool) :
    Except String Unit × RunState :=
  tagRepos env root_dir tag_name dry_run repos ⟨[], []⟩

/-! ## Configuration loader (script lines 7-31) -/

/-- An INI file as `configparser` hands it to the script: the sections in
file order, each with its items. -/
structure IniFile where
  sections : List (String × List (String × String))
deriving DecidableEq

/-- `load_ini_sections(ini_file, tag)` (line 7): the file argument is
`none` when the path does not exist (then `FileNotFoundError` is raised);
otherwise keep, in order, every section that is not in
`skip_sections = ["Options"]` and, when a tag is given, starts with it. -/
def load_ini_sections (ini_file : Option IniFile) (tag : Option String) :
    Except String (List (String × List (String × String))) :=
  match ini_file with
  | none => Except.error "INI file not found"
  | some cfg =>
    Except.ok (cfg.sections.filter (fun s =>
      !(["Options"].contains s.1) &&
        (match tag with
         | none => true
         | some t => pyStartsWith s.1 t)))

/-! ## Helper lemmas about the embedding -/

instance {ε α : Type} [DecidableEq ε] [DecidableEq α] : DecidableEq (Except ε α) := fun a b =>
  match a, b with
  | Except.error e1, Except.error e2 =>
    if h : e1 = e2 then isTrue (by rw [h])
    else isFalse (by intro hc; injection hc with h2; exact h h2)
  | Except.ok v1, Except.ok v2 =>
    if h : v1 = v2 then isTrue (by rw [h])
    else isFalse (by intro hc; injection hc with h2; exact h h2)
  | Except.error _, Except.ok _ => isFalse (by intro hc; exact Except.noConfusion hc)
  | Except.ok _, Except.error _ => isFalse (by intro hc; exact Except.noConfusion hc)

/-- Commands actually executed in a trace, in order. -/
def execCmds : List Event → List String
  | [] => []
  | Event.cmdExec c _ :: rest => c :: execCmds rest
  | Event.log _ :: rest => execCmds rest

/-- Commands actually executed in a given working directory. -/
def execCmdsIn (cwd : String) : List Event → List String
  | [] => []
  | Event.cmdExec c d :: rest =>
    if d = cwd then c :: execCmdsIn cwd rest else execCmdsIn cwd rest
  | Event.log _ :: rest => execCmdsIn cwd rest

/-- The two state-mutating git commands of the synchronizer. -/
def isMutating (cmd : String) : Bool :=
  pyStartsWith cmd "git merge --ff-only" || pyStartsWith cmd "git push"

theorem runCmd_false_ok (env : Env) (cmd cwd out err : String)
    (h : env.git cmd cwd = ⟨0, out, err⟩) (st : RunState) :
    runCmd env cmd cwd false st
      = (Except.ok (pyStrip out), emit st (Event.cmdExec cmd cwd)) := by
  simp [runCmd, runReal, run, h]

theorem runCmd_false_rc (env : Env) (cmd cwd : String)
    (h : (env.git cmd cwd).returncode = 0) (st : RunState) :
    runCmd env cmd cwd false st
      = (Except.ok (pyStrip (env.git cmd cwd).stdout), emit st (Event.cmdExec cmd cwd)) := by
  simp [runCmd, runReal, run, h]

theorem runCmd_false_err (env : Env) (cmd cwd : String)
    (h : (env.git cmd cwd).returncode ≠ 0) (st : RunState) :
    runCmd env cmd cwd false st
      = (Except.error ("Command failed: " ++ cmd ++ "\n" ++ (env.git cmd cwd).stderr),
         emit st (Event.cmdExec cmd cwd)) := by
  simp [runCmd, runReal, run, h]

theorem runCmd_true_eq (env : Env) (cmd cwd : String) (st : RunState) :
    runCmd env cmd cwd true st
      = (Except.ok "", emit st (Event.log ("[DRY-RUN] " ++ cmd))) := rfl

theorem syncRepos_append (env : Env) (root_dir : String) (dry_run : Bool)
    (l1 l2 : List (String × RepoData)) (st : RunState) :
    syncRepos env root_dir dry_run (l1 ++ l2) st
      = match syncRepos env root_dir dry_run l1 st with
        | (Except.error e, st) => (Except.error e, st)
        | (Except.ok _, st) => syncRepos env root_dir dry_run l2 st := by
  induction l1 generalizing st with
  | nil => simp [syncRepos]
  | cons hd tl ih =>
    obtain ⟨sec, data⟩ := hd
    simp only [List.cons_append, syncRepos]
    rcases h : syncRepo env root_dir data dry_run st with ⟨res, st2⟩
    cases res <;> simp [ih]

theorem tagRepos_append (env : Env) (root_dir tag_name : String) (dry_run : Bool)
    (l1 l2 : List (String × RepoData)) (st : RunState) :
    tagRepos env root_dir tag_name dry_run (l1 ++ l2) st
      = match tagRepos env root_dir tag_name dry_run l1 st with
        | (Except.error e, st) => (Except.error e, st)
        | (Except.ok _, st) => tagRepos env root_dir tag_name dry_run l2 st := by
  induction l1 generalizing st with
  | nil => simp [tagRepos]
  | cons hd tl ih =>
    obtain ⟨sec, data⟩ := hd
    simp only [List.cons_append, tagRepos]
    rcases h : tagRepo env root_dir tag_name sec data dry_run st with ⟨res, st2⟩
    cases res <;> simp [ih]

theorem strData_append (a b : String) : (a ++ b).data = a.data ++ b.data := rfl

theorem subAt_append_of_le (l1 l2 n : List Char) (hlen : n.length ≤ l1.length) :
    subAt (l1 ++ l2) n = subAt l1 n := by
  induction n generalizing l1 with
  | nil => cases l1 <;> simp [subAt]
  | cons d ns ih =>
    cases l1 with
    | nil => simp at hlen
    | cons c hs =>
      simp only [List.cons_append, subAt]
      rw [List.append_eq, ih hs (by simpa using hlen)]

theorem pyStartsWith_append_of_le (a b n : String) (h : n.data.length ≤ a.data.length) :
    pyStartsWith (a ++ b) n = pyStartsWith a n := by
  unfold pyStartsWith
  rw [strData_append, subAt_append_of_le _ _ _ h]

/-! ## C7: contract of the command runner `run` -/

/-- Claim C7: for every command and captured process outcome, `run` fails
with an error carrying the command text and the captured stderr if and
only if the exit status is non-zero, and otherwise returns the captured
stdout with surrounding whitespace stripped. -/
theorem run_failure_iff_nonzero_exit (cmd : String) (result : CommandOutcome) :
    ((∃ e, run cmd result = Except.error e) ↔ result.returncode ≠ 0)
    ∧ (result.returncode ≠ 0 →
        run cmd result
          = Except.error ("Command failed: " ++ cmd ++ "\n" ++ result.stderr))
    ∧ (result.returncode = 0 → run cmd result = Except.ok (pyStrip result.stdout)) := by
  unfold run
  by_cases h : result.returncode = 0 <;> simp [h]

/-- Witness for C7 at a failing and a succeeding concrete outcome. -/
theorem run_failure_iff_nonzero_exit_witness :
    run "git remote" ⟨1, "", "fatal: not a git repository"⟩
        = Except.error ("Command failed: " ++ "git remote" ++ "\n" ++ "fatal: not a git repository")
    ∧ run "git remote" ⟨0, " origin ", ""⟩ = Except.ok "origin" := by
  constructor
  · exact (run_failure_iff_nonzero_exit "git remote" ⟨1, "", "fatal: not a git repository"⟩).2.1 (by decide)
  · have h := (run_failure_iff_nonzero_exit "git remote" ⟨0, " origin ", ""⟩).2.2 rfl
    rw [h]; decide

/-! ## C3: missing folder in the synchronizer -/

/-- A repository entry whose folder is absent from disk. -/
def missingFolderRepo : RepoData := ⟨"r1", "url1", "missing"⟩

/-- A world in which no path exists. -/
def envNoFolder : Env := ⟨fun _ => false, fun _ _ => ⟨0, "", ""⟩⟩

/-- Counterexample to claim C3: on a run over one repository whose folder
does not exist, the synchronizer only prints a skip line; the status
buckets stay empty, so no `FolderMissing` verdict (indeed no verdict at
all) is recorded for the repository, contradicting the claimed bucket
append and the claimed one-verdict-per-repository accounting. -/
theorem folderMissing_bucket_counterexample :
    fast_forward_from_upstream envNoFolder [("r1", missingFolderRepo)] "root" false
      = (Except.ok (), ⟨[Event.log "[SKIP] r1: folder not found root/missing"], []⟩)
    ∧ bucketOf (fast_forward_from_upstream envNoFolder
        [("r1", missingFolderRepo)] "root" false).2.status "FolderMissing" = [] := by
  decide

/-- Claim C3 as amended: for every repository whose configured folder does
not exist on disk, the synchronizer prints a skip message, runs no
command, and records no verdict in the status buckets (so such a
repository receives no verdict rather than a `FolderMissing` one). -/
theorem syncRepo_missing_folder_skips (env : Env) (root_dir : String)
    (data : RepoData) (dry_run : Bool) (st : RunState)
    (h : env.fs (joinPath root_dir data.folder) = false) :
    syncRepo env root_dir data dry_run st
      = (Except.ok (),
         emit st (Event.log ("[SKIP] " ++ data.name ++ ": folder not found "
           ++ joinPath root_dir data.folder))) := by
  unfold syncRepo
  simp [h]

/-- Witness for the amended C3 at a concrete missing-folder repository. -/
theorem syncRepo_missing_folder_skips_witness :
    syncRepo envNoFolder "root" missingFolderRepo false ⟨[], []⟩
      = (Except.ok (),
         ⟨[Event.log "[SKIP] r1: folder not found root/missing"], []⟩) := by
  have h := syncRepo_missing_folder_skips envNoFolder "root" missingFolderRepo false ⟨[], []⟩ rfl
  rw [h]; decide

/-! ## C5: the tagger's branch detection bypasses the dry-run runner -/

/-- A well-formed repository entry for the tagger. -/
def taggerRepo : RepoData := ⟨"py", "https://example/py", "py"⟩

/-- A world for the tagger in which every path exists and branch detection
reports `main`. -/
def taggerEnv : Env :=
  ⟨fun _ => true, fun cmd _ =>
    if cmd = "git rev-parse --abbrev-ref HEAD" then ⟨0, "main", ""⟩ else ⟨0, "", ""⟩⟩

/-- Evaluation of the tagger at the failing input of claim C5: in a dry
run the two tag commands are only logged, but the current-branch
detection `git rev-parse --abbrev-ref HEAD` is still actually executed,
because `tag_release_repos` calls the raw runner `run` for it instead of
the simulation-aware `run_cmd` — contradicting the claim (and the
function's own docstring, which promises that with `dry_run=True` all git
operations are printed but not executed). -/
theorem tagger_dry_run_branch_detection_executes :
    tag_release_repos taggerEnv [("py", taggerRepo)] "root" "v1.0" true
      = (Except.ok (),
         ⟨[Event.cmdExec "git rev-parse --abbrev-ref HEAD" "root/py",
           Event.log "py: https://example/py @ py @ main",
           Event.log "[DRY-RUN] git tag \"v1.0\"",
           Event.log "[DRY-RUN] git push origin \"v1.0\""], []⟩)
    ∧ execCmds (tag_release_repos taggerEnv [("py", taggerRepo)] "root" "v1.0" true).2.events
        = ["git rev-parse --abbrev-ref HEAD"] := by
  decide

/-! ## C2: topology classification -/

/-- Claim C2: for every repository that reaches the topology-classification
step in a real (non-simulated) run, the verdict is decided by first-match
order on the stripped command outputs: `merge_base = head_commit` yields
the `Fast-forwarded` verdict with the fast-forward-merge command executed
and then the push command; otherwise `merge_base = upstream_commit`
yields the `ahead` verdict with no mutating command executed; otherwise
the `diverged` verdict with no mutating command executed.  The final
event traces and status buckets are given exactly. -/
theorem syncRepo_topology_classification
    (env : Env) (root_dir : String) (data : RepoData)
    (remotes rerr branchRaw berr headsRaw herr mbRaw mberr headRaw hderr upRaw uperr : String)
    (hfs : env.fs (joinPath root_dir data.folder) = true)
    (hremote : env.git "git remote" (joinPath root_dir data.folder) = ⟨0, remotes, rerr⟩)
    (hup : (pySplitlines (pyStrip remotes)).contains "upstream" = true)
    (hbranch : env.git "git rev-parse --abbrev-ref HEAD" (joinPath root_dir data.folder) = ⟨0, branchRaw, berr⟩)
    (hbne : pyStrip branchRaw ≠ "")
    (hfetch : (env.git "git fetch upstream" (joinPath root_dir data.folder)).returncode = 0)
    (hheads : env.git "git branch -r" (joinPath root_dir data.folder) = ⟨0, headsRaw, herr⟩)
    (hhas : strContains (pyStrip headsRaw) ("upstream/" ++ pyStrip branchRaw) = true)
    (hmb : env.git ("git merge-base HEAD " ++ ("upstream/" ++ pyStrip branchRaw)) (joinPath root_dir data.folder) = ⟨0, mbRaw, mberr⟩)
    (hhead : env.git "git rev-parse HEAD" (joinPath root_dir data.folder) = ⟨0, headRaw, hderr⟩)
    (hupc : env.git ("git rev-parse " ++ ("upstream/" ++ pyStrip branchRaw)) (joinPath root_dir data.folder) = ⟨0, upRaw, uperr⟩)
    (hmerge : (env.git ("git merge --ff-only " ++ ("upstream/" ++ pyStrip branchRaw)) (joinPath root_dir data.folder)).returncode = 0)
    (hpush : (env.git ("git push origin " ++ pyStrip branchRaw) (joinPath root_dir data.folder)).returncode = 0) :
    (pyStrip mbRaw = pyStrip headRaw →
      syncRepo env root_dir data false ⟨[], []⟩
        = (Except.ok (),
           ⟨[Event.log ("=== " ++ data.name ++ " @ " ++ joinPath root_dir data.folder ++ " ==="),
             Event.cmdExec "git remote" (joinPath root_dir data.folder),
             Event.cmdExec "git rev-parse --abbrev-ref HEAD" (joinPath root_dir data.folder),
             Event.cmdExec "git fetch upstream" (joinPath root_dir data.folder),
             Event.cmdExec "git branch -r" (joinPath root_dir data.folder),
             Event.cmdExec ("git merge-base HEAD " ++ ("upstream/" ++ pyStrip branchRaw)) (joinPath root_dir data.folder),
             Event.cmdExec "git rev-parse HEAD" (joinPath root_dir data.folder),
             Event.cmdExec ("git rev-parse " ++ ("upstream/" ++ pyStrip branchRaw)) (joinPath root_dir data.folder),
             Event.log "Fast-forward possible -> merging upstream into local",
             Event.cmdExec ("git merge --ff-only " ++ ("upstream/" ++ pyStrip branchRaw)) (joinPath root_dir data.folder),
             Event.cmdExec ("git push origin " ++ pyStrip branchRaw) (joinPath root_dir data.folder),
             Event.log "Fast-forwarded and pushed to origin."],
            [("Fast-forwarded", joinPath root_dir data.folder)]⟩))
    ∧ (pyStrip mbRaw ≠ pyStrip headRaw → pyStrip mbRaw = pyStrip upRaw →
      syncRepo env root_dir data false ⟨[], []⟩
        = (Except.ok (),
           ⟨[Event.log ("=== " ++ data.name ++ " @ " ++ joinPath root_dir data.folder ++ " ==="),
             Event.cmdExec "git remote" (joinPath root_dir data.folder),
             Event.cmdExec "git rev-parse --abbrev-ref HEAD" (joinPath root_dir data.folder),
             Event.cmdExec "git fetch upstream" (joinPath root_dir data.folder),
             Event.cmdExec "git branch -r" (joinPath root_dir data.folder),
             Event.cmdExec ("git merge-base HEAD " ++ ("upstream/" ++ pyStrip branchRaw)) (joinPath root_dir data.folder),
             Event.cmdExec "git rev-parse HEAD" (joinPath root_dir data.folder),
             Event.cmdExec ("git rev-parse " ++ ("upstream/" ++ pyStrip branchRaw)) (joinPath root_dir data.folder),
             Event.log "Local branch is ahead of upstream -> cannot fast-forward."],
            [("ahead", joinPath root_dir data.folder)]⟩))
    ∧ (pyStrip mbRaw ≠ pyStrip headRaw → pyStrip mbRaw ≠ pyStrip upRaw →
      syncRepo env root_dir data false ⟨[], []⟩
        = (Except.ok (),
           ⟨[Event.log ("=== " ++ data.name ++ " @ " ++ joinPath root_dir data.folder ++ " ==="),
             Event.cmdExec "git remote" (joinPath root_dir data.folder),
             Event.cmdExec "git rev-parse --abbrev-ref HEAD" (joinPath root_dir data.folder),
             Event.cmdExec "git fetch upstream" (joinPath root_dir data.folder),
             Event.cmdExec "git branch -r" (joinPath root_dir data.folder),
             Event.cmdExec ("git merge-base HEAD " ++ ("upstream/" ++ pyStrip branchRaw)) (joinPath root_dir data.folder),
             Event.cmdExec "git rev-parse HEAD" (joinPath root_dir data.folder),
             Event.cmdExec ("git rev-parse " ++ ("upstream/" ++ pyStrip branchRaw)) (joinPath root_dir data.folder),
             Event.log "Local and upstream have diverged -> manual merge/rebase required."],
            [("diverged", joinPath root_dir data.folder)]⟩)) := by
  refine ⟨?_, ?_, ?_⟩
  · intro h1
    simp only [syncRepo, hfs, if_true,
      runCmd_false_ok env "git remote" _ _ _ hremote,
      runCmd_false_ok env "git rev-parse --abbrev-ref HEAD" _ _ _ hbranch,
      runCmd_false_rc env "git fetch upstream" _ hfetch,
      runCmd_false_ok env "git branch -r" _ _ _ hheads,
      runCmd_false_ok env _ _ _ _ hmb,
      runCmd_false_ok env "git rev-parse HEAD" _ _ _ hhead,
      runCmd_false_ok env _ _ _ _ hupc,
      runCmd_false_rc env _ _ hmerge,
      runCmd_false_rc env _ _ hpush,
      hup, hbne, if_false, hhas, h1, emit, addStatus]
    simp
  · intro h1 h2
    have h1b : pyStrip upRaw ≠ pyStrip headRaw := fun h => h1 (h2.trans h)
    simp only [syncRepo, hfs, if_true,
      runCmd_false_ok env "git remote" _ _ _ hremote,
      runCmd_false_ok env "git rev-parse --abbrev-ref HEAD" _ _ _ hbranch,
      runCmd_false_rc env "git fetch upstream" _ hfetch,
      runCmd_false_ok env "git branch -r" _ _ _ hheads,
      runCmd_false_ok env _ _ _ _ hmb,
      runCmd_false_ok env "git rev-parse HEAD" _ _ _ hhead,
      runCmd_false_ok env _ _ _ _ hupc,
      hup, hbne, if_false, hhas, h1, h1b, h2, emit, addStatus]
    simp
  · intro h1 h2
    simp only [syncRepo, hfs, if_true,
      runCmd_false_ok env "git remote" _ _ _ hremote,
      runCmd_false_ok env "git rev-parse --abbrev-ref HEAD" _ _ _ hbranch,
      runCmd_false_rc env "git fetch upstream" _ hfetch,
      runCmd_false_ok env "git branch -r" _ _ _ hheads,
      runCmd_false_ok env _ _ _ _ hmb,
      runCmd_false_ok env "git rev-parse HEAD" _ _ _ hhead,
      runCmd_false_ok env _ _ _ _ hupc,
      hup, hbne, if_false, hhas, h1, h2, emit, addStatus]
    simp

/-- Convenience: a successful process outcome with given stdout. -/
def okOut (s : String) : CommandOutcome := ⟨0, s, ""⟩

/-- A concrete world for witnesses: every path exists; the repository is
on branch `main`, has an `upstream` remote with an `upstream/main`
branch, and local HEAD `A` is the merge base of `A` and upstream `B`. -/
def ffEnv : Env :=
  ⟨fun _ => true, fun cmd _ =>
    if cmd = "git remote" then okOut "origin\nupstream"
    else if cmd = "git rev-parse --abbrev-ref HEAD" then okOut "main"
    else if cmd = "git branch -r" then okOut "  origin/main\n  upstream/main"
    else if cmd = "git merge-base HEAD upstream/main" then okOut "A"
    else if cmd = "git rev-parse HEAD" then okOut "A"
    else if cmd = "git rev-parse upstream/main" then okOut "B"
    else okOut ""⟩

/-- A well-formed repository entry at folder `py`. -/
def pyRepo : RepoData := ⟨"py", "https://example/py", "py"⟩

/-- Witness for C2: in the concrete world `ffEnv` the merge base equals
HEAD, so the repository fast-forwards: merge then push are executed, in
that order, and the verdict is `Fast-forwarded`. -/
theorem syncRepo_topology_classification_witness :
    syncRepo ffEnv "root" pyRepo false ⟨[], []⟩
      = (Except.ok (),
         ⟨[Event.log "=== py @ root/py ===",
           Event.cmdExec "git remote" "root/py",
           Event.cmdExec "git rev-parse --abbrev-ref HEAD" "root/py",
           Event.cmdExec "git fetch upstream" "root/py",
           Event.cmdExec "git branch -r" "root/py",
           Event.cmdExec "git merge-base HEAD upstream/main" "root/py",
           Event.cmdExec "git rev-parse HEAD" "root/py",
           Event.cmdExec "git rev-parse upstream/main" "root/py",
           Event.log "Fast-forward possible -> merging upstream into local",
           Event.cmdExec "git merge --ff-only upstream/main" "root/py",
           Event.cmdExec "git push origin main" "root/py",
           Event.log "Fast-forwarded and pushed to origin."],
          [("Fast-forwarded", "root/py")]⟩) := by
  have h := (syncRepo_topology_classification ffEnv "root" pyRepo
      "origin\nupstream" "" "main" "" "  origin/main\n  upstream/main" "" "A" "" "A" "" "B" ""
      (by decide) (by decide) (by decide) (by decide) (by decide) (by decide)
      (by decide) (by decide) (by decide) (by decide) (by decide) (by decide)
      (by decide)).1 (by decide)
  rw [h]; decide

/-! ## C9: head = upstream falls into the fast-forward branch -/

/-- Claim C9: a repository whose HEAD already equals the upstream tip (so
the merge base equals both) is not special-cased: it falls into the
fast-forward branch and its verdict is `Fast-forwarded`, never `ahead` or
`diverged`.  Because a successful fast-forward leaves HEAD equal to the
upstream tip, the same hypotheses hold for the state after a successful
fast-forward, so a second synchronizer run again satisfies this theorem
and is again classified `Fast-forwarded`. -/
theorem syncRepo_synced_head_fast_forwards
    (env : Env) (root_dir : String) (data : RepoData)
    (remotes rerr branchRaw berr headsRaw herr mbRaw mberr headRaw hderr upRaw uperr : String)
    (hfs : env.fs (joinPath root_dir data.folder) = true)
    (hremote : env.git "git remote" (joinPath root_dir data.folder) = ⟨0, remotes, rerr⟩)
    (hup : (pySplitlines (pyStrip remotes)).contains "upstream" = true)
    (hbranch : env.git "git rev-parse --abbrev-ref HEAD" (joinPath root_dir data.folder) = ⟨0, branchRaw, berr⟩)
    (hbne : pyStrip branchRaw ≠ "")
    (hfetch : (env.git "git fetch upstream" (joinPath root_dir data.folder)).returncode = 0)
    (hheads : env.git "git branch -r" (joinPath root_dir data.folder) = ⟨0, headsRaw, herr⟩)
    (hhas : strContains (pyStrip headsRaw) ("upstream/" ++ pyStrip branchRaw) = true)
    (hmb : env.git ("git merge-base HEAD " ++ ("upstream/" ++ pyStrip branchRaw)) (joinPath root_dir data.folder) = ⟨0, mbRaw, mberr⟩)
    (hhead : env.git "git rev-parse HEAD" (joinPath root_dir data.folder) = ⟨0, headRaw, hderr⟩)
    (hupc : env.git ("git rev-parse " ++ ("upstream/" ++ pyStrip branchRaw)) (joinPath root_dir data.folder) = ⟨0, upRaw, uperr⟩)
    (hmerge : (env.git ("git merge --ff-only " ++ ("upstream/" ++ pyStrip branchRaw)) (joinPath root_dir data.folder)).returncode = 0)
    (hpush : (env.git ("git push origin " ++ pyStrip branchRaw) (joinPath root_dir data.folder)).returncode = 0)
    (hsynced : pyStrip headRaw = pyStrip upRaw)
    (hmbh : pyStrip mbRaw = pyStrip headRaw) :
    syncRepo env root_dir data false ⟨[], []⟩
      = (Except.ok (),
         ⟨[Event.log ("=== " ++ data.name ++ " @ " ++ joinPath root_dir data.folder ++ " ==="),
           Event.cmdExec "git remote" (joinPath root_dir data.folder),
           Event.cmdExec "git rev-parse --abbrev-ref HEAD" (joinPath root_dir data.folder),
           Event.cmdExec "git fetch upstream" (joinPath root_dir data.folder),
           Event.cmdExec "git branch -r" (joinPath root_dir data.folder),
           Event.cmdExec ("git merge-base HEAD " ++ ("upstream/" ++ pyStrip branchRaw)) (joinPath root_dir data.folder),
           Event.cmdExec "git rev-parse HEAD" (joinPath root_dir data.folder),
           Event.cmdExec ("git rev-parse " ++ ("upstream/" ++ pyStrip branchRaw)) (joinPath root_dir data.folder),
           Event.log "Fast-forward possible -> merging upstream into local",
           Event.cmdExec ("git merge --ff-only " ++ ("upstream/" ++ pyStrip branchRaw)) (joinPath root_dir data.folder),
           Event.cmdExec ("git push origin " ++ pyStrip branchRaw) (joinPath root_dir data.folder),
           Event.log "Fast-forwarded and pushed to origin."],
          [("Fast-forwarded", joinPath root_dir data.folder)]⟩)
    ∧ bucketOf (syncRepo env root_dir data false ⟨[], []⟩).2.status "ahead" = []
    ∧ bucketOf (syncRepo env root_dir data false ⟨[], []⟩).2.status "diverged" = [] := by
  have hff : syncRepo env root_dir data false ⟨[], []⟩
      = (Except.ok (),
         ⟨[Event.log ("=== " ++ data.name ++ " @ " ++ joinPath root_dir data.folder ++ " ==="),
           Event.cmdExec "git remote" (joinPath root_dir data.folder),
           Event.cmdExec "git rev-parse --abbrev-ref HEAD" (joinPath root_dir data.folder),
           Event.cmdExec "git fetch upstream" (joinPath root_dir data.folder),
           Event.cmdExec "git branch -r" (joinPath root_dir data.folder),
           Event.cmdExec ("git merge-base HEAD " ++ ("upstream/" ++ pyStrip branchRaw)) (joinPath root_dir data.folder),
           Event.cmdExec "git rev-parse HEAD" (joinPath root_dir data.folder),
           Event.cmdExec ("git rev-parse " ++ ("upstream/" ++ pyStrip branchRaw)) (joinPath root_dir data.folder),
           Event.log "Fast-forward possible -> merging upstream into local",
           Event.cmdExec ("git merge --ff-only " ++ ("upstream/" ++ pyStrip branchRaw)) (joinPath root_dir data.folder),
           Event.cmdExec ("git push origin " ++ pyStrip branchRaw) (joinPath root_dir data.folder),
           Event.log "Fast-forwarded and pushed to origin."],
          [("Fast-forwarded", joinPath root_dir data.folder)]⟩) := by
    simp only [syncRepo, hfs, if_true,
      runCmd_false_ok env "git remote" _ _ _ hremote,
      runCmd_false_ok env "git rev-parse --abbrev-ref HEAD" _ _ _ hbranch,
      runCmd_false_rc env "git fetch upstream" _ hfetch,
      runCmd_false_ok env "git branch -r" _ _ _ hheads,
      runCmd_false_ok env _ _ _ _ hmb,
      runCmd_false_ok env "git rev-parse HEAD" _ _ _ hhead,
      runCmd_false_ok env _ _ _ _ hupc,
      runCmd_false_rc env _ _ hmerge,
      runCmd_false_rc env _ _ hpush,
      hup, hbne, if_false, hhas, hmbh, emit, addStatus]
    simp
  refine ⟨hff, ?_, ?_⟩ <;> rw [hff] <;> simp [bucketOf]

/-- Witness for C9: a concrete world in which HEAD, the upstream tip and
the merge base are all commit `A`; the repository is classified
`Fast-forwarded`. -/
def syncedEnv : Env :=
  ⟨fun _ => true, fun cmd _ =>
    if cmd = "git remote" then okOut "origin\nupstream"
    else if cmd = "git rev-parse --abbrev-ref HEAD" then okOut "main"
    else if cmd = "git branch -r" then okOut "  origin/main\n  upstream/main"
    else if cmd = "git merge-base HEAD upstream/main" then okOut "A"
    else if cmd = "git rev-parse HEAD" then okOut "A"
    else if cmd = "git rev-parse upstream/main" then okOut "A"
    else okOut ""⟩

theorem syncRepo_synced_head_fast_forwards_witness :
    (syncRepo syncedEnv "root" pyRepo false ⟨[], []⟩).2.status = [("Fast-forwarded", "root/py")]
    ∧ bucketOf (syncRepo syncedEnv "root" pyRepo false ⟨[], []⟩).2.status "ahead" = []
    ∧ bucketOf (syncRepo syncedEnv "root" pyRepo false ⟨[], []⟩).2.status "diverged" = [] := by
  have h := syncRepo_synced_head_fast_forwards syncedEnv "root" pyRepo
      "origin\nupstream" "" "main" "" "  origin/main\n  upstream/main" "" "A" "" "A" "" "A" ""
      (by decide) (by decide) (by decide) (by decide) (by decide) (by decide)
      (by decide) (by decide) (by decide) (by decide) (by decide) (by decide)
      (by decide) (by decide) (by decide)
  refine ⟨?_, ?_, ?_⟩ <;> rw [h.1] <;> decide

/-! ## C8: missing upstream branch -/

/-- Claim C8: for a repository with an upstream remote (and the
classification chain available), the `no_upstream_branch` verdict is
recorded exactly when the expected name `upstream/<branch>` does not
occur in the `git branch -r` output; in that case the trace shows that
the merge-base command is never executed and no mutating command runs. -/
theorem syncRepo_no_upstream_branch_iff
    (env : Env) (root_dir : String) (data : RepoData)
    (remotes rerr branchRaw berr headsRaw herr mbRaw mberr headRaw hderr upRaw uperr : String)
    (hfs : env.fs (joinPath root_dir data.folder) = true)
    (hremote : env.git "git remote" (joinPath root_dir data.folder) = ⟨0, remotes, rerr⟩)
    (hup : (pySplitlines (pyStrip remotes)).contains "upstream" = true)
    (hbranch : env.git "git rev-parse --abbrev-ref HEAD" (joinPath root_dir data.folder) = ⟨0, branchRaw, berr⟩)
    (hbne : pyStrip branchRaw ≠ "")
    (hfetch : (env.git "git fetch upstream" (joinPath root_dir data.folder)).returncode = 0)
    (hheads : env.git "git branch -r" (joinPath root_dir data.folder) = ⟨0, headsRaw, herr⟩)
    (hmb : env.git ("git merge-base HEAD " ++ ("upstream/" ++ pyStrip branchRaw)) (joinPath root_dir data.folder) = ⟨0, mbRaw, mberr⟩)
    (hhead : env.git "git rev-parse HEAD" (joinPath root_dir data.folder) = ⟨0, headRaw, hderr⟩)
    (hupc : env.git ("git rev-parse " ++ ("upstream/" ++ pyStrip branchRaw)) (joinPath root_dir data.folder) = ⟨0, upRaw, uperr⟩)
    (hmerge : (env.git ("git merge --ff-only " ++ ("upstream/" ++ pyStrip branchRaw)) (joinPath root_dir data.folder)).returncode = 0)
    (hpush : (env.git ("git push origin " ++ pyStrip branchRaw) (joinPath root_dir data.folder)).returncode = 0) :
    (strContains (pyStrip headsRaw) ("upstream/" ++ pyStrip branchRaw) = false →
      syncRepo env root_dir data false ⟨[], []⟩
        = (Except.ok (),
           ⟨[Event.log ("=== " ++ data.name ++ " @ " ++ joinPath root_dir data.folder ++ " ==="),
             Event.cmdExec "git remote" (joinPath root_dir data.folder),
             Event.cmdExec "git rev-parse --abbrev-ref HEAD" (joinPath root_dir data.folder),
             Event.cmdExec "git fetch upstream" (joinPath root_dir data.folder),
             Event.cmdExec "git branch -r" (joinPath root_dir data.folder),
             Event.log "Upstream branch does not exist."],
            [("no_upstream_branch", joinPath root_dir data.folder)]⟩))
    ∧ (strContains (pyStrip headsRaw) ("upstream/" ++ pyStrip branchRaw) = true →
      bucketOf (syncRepo env root_dir data false ⟨[], []⟩).2.status "no_upstream_branch" = []) := by
  constructor
  · intro habs
    simp only [syncRepo, hfs, if_true,
      runCmd_false_ok env "git remote" _ _ _ hremote,
      runCmd_false_ok env "git rev-parse --abbrev-ref HEAD" _ _ _ hbranch,
      runCmd_false_rc env "git fetch upstream" _ hfetch,
      runCmd_false_ok env "git branch -r" _ _ _ hheads,
      hup, hbne, if_false, habs, emit, addStatus]
    simp
  · intro hpres
    by_cases hmh : pyStrip mbRaw = pyStrip headRaw
    · simp only [syncRepo, hfs, if_true,
        runCmd_false_ok env "git remote" _ _ _ hremote,
        runCmd_false_ok env "git rev-parse --abbrev-ref HEAD" _ _ _ hbranch,
        runCmd_false_rc env "git fetch upstream" _ hfetch,
        runCmd_false_ok env "git branch -r" _ _ _ hheads,
        runCmd_false_ok env _ _ _ _ hmb,
        runCmd_false_ok env "git rev-parse HEAD" _ _ _ hhead,
        runCmd_false_ok env _ _ _ _ hupc,
        runCmd_false_rc env _ _ hmerge,
        runCmd_false_rc env _ _ hpush,
        hup, hbne, if_false, hpres, hmh, emit, addStatus]
      simp [bucketOf]
    · by_cases hmu : pyStrip mbRaw = pyStrip upRaw
      · have hub : pyStrip upRaw ≠ pyStrip headRaw := fun h => hmh (hmu.trans h)
        simp only [syncRepo, hfs, if_true,
          runCmd_false_ok env "git remote" _ _ _ hremote,
          runCmd_false_ok env "git rev-parse --abbrev-ref HEAD" _ _ _ hbranch,
          runCmd_false_rc env "git fetch upstream" _ hfetch,
          runCmd_false_ok env "git branch -r" _ _ _ hheads,
          runCmd_false_ok env _ _ _ _ hmb,
          runCmd_false_ok env "git rev-parse HEAD" _ _ _ hhead,
          runCmd_false_ok env _ _ _ _ hupc,
          hup, hbne, if_false, hpres, hmh, hub, hmu, emit, addStatus]
        simp [bucketOf]
      · simp only [syncRepo, hfs, if_true,
          runCmd_false_ok env "git remote" _ _ _ hremote,
          runCmd_false_ok env "git rev-parse --abbrev-ref HEAD" _ _ _ hbranch,
          runCmd_false_rc env "git fetch upstream" _ hfetch,
          runCmd_false_ok env "git branch -r" _ _ _ hheads,
          runCmd_false_ok env _ _ _ _ hmb,
          runCmd_false_ok env "git rev-parse HEAD" _ _ _ hhead,
          runCmd_false_ok env _ _ _ _ hupc,
          hup, hbne, if_false, hpres, hmh, hmu, emit, addStatus]
        simp [bucketOf]

/-- A concrete world whose `git branch -r` listing has no
`upstream/main`, although the `upstream` remote exists. -/
def noUpBranchEnv : Env :=
  ⟨fun _ => true, fun cmd _ =>
    if cmd = "git remote" then okOut "origin\nupstream"
    else if cmd = "git rev-parse --abbrev-ref HEAD" then okOut "main"
    else if cmd = "git branch -r" then okOut "  origin/main"
    else okOut ""⟩

/-- Witness for C8: with no `upstream/main` in the listing the verdict is
`no_upstream_branch` and only the four read commands ran. -/
theorem syncRepo_no_upstream_branch_iff_witness :
    syncRepo noUpBranchEnv "root" pyRepo false ⟨[], []⟩
      = (Except.ok (),
         ⟨[Event.log "=== py @ root/py ===",
           Event.cmdExec "git remote" "root/py",
           Event.cmdExec "git rev-parse --abbrev-ref HEAD" "root/py",
           Event.cmdExec "git fetch upstream" "root/py",
           Event.cmdExec "git branch -r" "root/py",
           Event.log "Upstream branch does not exist."],
          [("no_upstream_branch", "root/py")]⟩) := by
  have h := (syncRepo_no_upstream_branch_iff noUpBranchEnv "root" pyRepo
      "origin\nupstream" "" "main" "" "  origin/main" "" "" "" "" "" "" ""
      (by decide) (by decide) (by decide) (by decide) (by decide) (by decide)
      (by decide) (by decide) (by decide) (by decide) (by decide)
      (by decide)).1 (by decide)
  rw [h]; decide

/-! ## C1: an escaping command error aborts the whole run -/

/-- A repository entry at folder `r1`. -/
def r1Repo : RepoData := ⟨"r1", "https://example/r1", "r1"⟩

/-- A world in which repository `r1` fails its upstream fetch while every
other repository behaves like `ffEnv` (and would fast-forward). -/
def failingFetchEnv : Env :=
  ⟨fun _ => true, fun cmd cwd =>
    if cwd = "root/r1" then
      if cmd = "git remote" then okOut "origin\nupstream"
      else if cmd = "git rev-parse --abbrev-ref HEAD" then okOut "main"
      else if cmd = "git fetch upstream" then ⟨1, "", "network down"⟩
      else okOut ""
    else ffEnv.git cmd cwd⟩

/-- Counterexample to claim C1: repository `r1` fails at the fetch step
(a step not handled as an expected absence), and the error aborts the
WHOLE run, not only `r1`'s processing: the healthy repository `py`
listed right after `r1` is never visited (no command executes in its
folder), no verdict at all is recorded, and the status summary is never
rendered. -/
theorem sync_error_abort_counterexample :
    (fast_forward_from_upstream failingFetchEnv [("r1", r1Repo), ("py", pyRepo)] "root" false).1
      = Except.error "Command failed: git fetch upstream\nnetwork down"
    ∧ execCmdsIn "root/py"
        (fast_forward_from_upstream failingFetchEnv [("r1", r1Repo), ("py", pyRepo)] "root" false).2.events = []
    ∧ (fast_forward_from_upstream failingFetchEnv [("r1", r1Repo), ("py", pyRepo)] "root" false).2.status = [] := by
  decide

/-- Claim C1 as amended: a `CommandExecutionError` raised at a step not
handled as an expected absence propagates out of the whole repository
loop: the run terminates with that error in the state reached inside the
failing repository, the remaining repositories are never processed, and
the status summary is not rendered. -/
theorem syncRepos_error_aborts_run (env : Env) (root_dir : String) (dry_run : Bool)
    (pre : List (String × RepoData)) (sec : String) (data : RepoData)
    (post : List (String × RepoData)) (st st2 : RunState) (e : String)
    (hpre : syncRepos env root_dir dry_run pre ⟨[], []⟩ = (Except.ok (), st))
    (herr : syncRepo env root_dir data dry_run st = (Except.error e, st2)) :
    fast_forward_from_upstream env (pre ++ (sec, data) :: post) root_dir dry_run
      = (Except.error e, st2) := by
  unfold fast_forward_from_upstream
  rw [syncRepos_append env root_dir dry_run pre ((sec, data) :: post) ⟨[], []⟩, hpre]
  simp only [syncRepos, herr]

/-- The state reached inside `r1` when its fetch fails. -/
def fetchAbortState : RunState :=
  ⟨[Event.log "=== r1 @ root/r1 ===",
    Event.cmdExec "git remote" "root/r1",
    Event.cmdExec "git rev-parse --abbrev-ref HEAD" "root/r1",
    Event.cmdExec "git fetch upstream" "root/r1"], []⟩

/-- Witness for the amended C1 at the concrete failing world. -/
theorem syncRepos_error_aborts_run_witness :
    fast_forward_from_upstream failingFetchEnv [("r1", r1Repo), ("py", pyRepo)] "root" false
      = (Except.error "Command failed: git fetch upstream\nnetwork down", fetchAbortState) :=
  syncRepos_error_aborts_run failingFetchEnv "root" false [] "r1" r1Repo [("py", pyRepo)]
    ⟨[], []⟩ fetchAbortState "Command failed: git fetch upstream\nnetwork down" rfl (by decide)

/-! ## C6: the tagger fails the whole run on a bad entry -/

/-- Claim C6: in the release tagger, an entry with a missing/empty
`name`, `git` or `folder` field, or whose folder does not exist on disk,
makes the whole run fail at that entry: the result is an error and the
run state is exactly the state after the preceding repositories, so no
command at all (in particular no tagging) runs for the bad entry or any
later repository. -/
theorem tagRepos_bad_entry_aborts (env : Env) (root_dir tag_name : String) (dry_run : Bool)
    (pre : List (String × RepoData)) (sec : String) (data : RepoData)
    (post : List (String × RepoData)) (st : RunState)
    (hpre : tagRepos env root_dir tag_name dry_run pre ⟨[], []⟩ = (Except.ok (), st))
    (hbad : data.name = "" ∨ data.git = "" ∨ data.folder = ""
              ∨ env.fs (joinPath root_dir data.folder) = false) :
    ∃ e, tag_release_repos env (pre ++ (sec, data) :: post) root_dir tag_name dry_run
      = (Except.error e, st) := by
  have hstep : ∃ e0, tagRepo env root_dir tag_name sec data dry_run st
      = (Except.error e0, st) := by
    by_cases hfields : data.name = "" ∨ data.git = "" ∨ data.folder = ""
    · exact ⟨sec ++ ": missing input", by simp [tagRepo, hfields]⟩
    · have hfs : env.fs (joinPath root_dir data.folder) = false := by
        rcases hbad with h | h | h | h
        · exact absurd (Or.inl h) hfields
        · exact absurd (Or.inr (Or.inl h)) hfields
        · exact absurd (Or.inr (Or.inr h)) hfields
        · exact h
      exact ⟨"[SKIP] " ++ data.name ++ ": folder not found (" ++ joinPath root_dir data.folder ++ ")",
        by simp [tagRepo, hfields, hfs]⟩
  obtain ⟨e0, he0⟩ := hstep
  refine ⟨e0, ?_⟩
  unfold tag_release_repos
  rw [tagRepos_append env root_dir tag_name dry_run pre ((sec, data) :: post) ⟨[], []⟩, hpre]
  simp only [tagRepos, he0]

/-- Entry `a`: well-formed, folder exists. -/
def aRepo : RepoData := ⟨"a", "https://example/a", "a"⟩

/-- Entry `b`: well-formed fields but its folder is missing on disk. -/
def bRepo : RepoData := ⟨"b", "https://example/b", "b"⟩

/-- Entry `c`: well-formed, folder exists, listed after the bad entry. -/
def cRepo : RepoData := ⟨"c", "https://example/c", "c"⟩

/-- A world for the tagger in which only folders `root/a` and `root/c`
exist and branch detection reports `main`. -/
def tagWorldEnv : Env :=
  ⟨fun p => p = "root/a" ∨ p = "root/c", fun cmd _ =>
    if cmd = "git rev-parse --abbrev-ref HEAD" then okOut "main" else okOut ""⟩

/-- The state after the tagger has processed entry `a` for tag `v1`. -/
def tagPreState : RunState :=
  ⟨[Event.cmdExec "git rev-parse --abbrev-ref HEAD" "root/a",
    Event.log "a: https://example/a @ a @ main",
    Event.cmdExec "git tag \"v1\"" "root/a",
    Event.cmdExec "git push origin \"v1\"" "root/a"], []⟩

/-- Witness for C6: the run with entries `a`, `b` (folder missing), `c`
fails after tagging `a` only; nothing is done for `b` or `c`. -/
theorem tagRepos_bad_entry_aborts_witness :
    ∃ e, tag_release_repos tagWorldEnv [("a", aRepo), ("b", bRepo), ("c", cRepo)] "root" "v1" false
      = (Except.error e, tagPreState) :=
  tagRepos_bad_entry_aborts tagWorldEnv "root" "v1" false [("a", aRepo)] "b" bRepo
    [("c", cRepo)] tagPreState (by decide) (by decide)

/-! ## C10: the configuration loader -/

/-- Claim C10: the loader fails with a file-not-found error exactly when
the INI file does not exist; otherwise it returns the file's sections
with the reserved `Options` section removed and, when a tag prefix is
given, only sections whose name starts with it — as a sublist of the
original section list, so file order is preserved, and membership is
exactly as described. -/
theorem load_ini_sections_spec (ini_file : Option IniFile) (tag : Option String) :
    (ini_file = none → load_ini_sections ini_file tag = Except.error "INI file not found")
    ∧ (∀ cfg, ini_file = some cfg →
        ∃ l, load_ini_sections ini_file tag = Except.ok l
          ∧ List.Sublist l cfg.sections
          ∧ (∀ s, s ∈ l ↔ s ∈ cfg.sections ∧ s.1 ≠ "Options"
              ∧ (tag = none ∨ ∃ t, tag = some t ∧ pyStartsWith s.1 t = true))) := by
  constructor
  · intro h
    rw [h]
    rfl
  · intro cfg h
    subst h
    refine ⟨_, rfl, List.filter_sublist _, ?_⟩
    intro s
    rw [List.mem_filter]
    constructor
    · rintro ⟨hmem, hcond⟩
      rw [Bool.and_eq_true] at hcond
      obtain ⟨hopt, htag⟩ := hcond
      refine ⟨hmem, ?_, ?_⟩
      · intro hs
        simp [hs] at hopt
      · cases tag with
        | none => exact Or.inl rfl
        | some t => exact Or.inr ⟨t, rfl, htag⟩
    · rintro ⟨hmem, hopt, htag⟩
      refine ⟨hmem, ?_⟩
      rw [Bool.and_eq_true]
      constructor
      · simp [hopt]
      · cases tag with
        | none => rfl
        | some t =>
          rcases htag with h | ⟨t2, ht2, hst⟩
          · exact absurd h (by simp)
          · cases Option.some.inj ht2
            exact hst

/-- A concrete INI file for the witness. -/
def witnessIni : IniFile :=
  ⟨[("Options", [("root_dir", "C:/delphi")]),
    ("talos_a", [("name", "a")]),
    ("other", [("name", "o")]),
    ("talos_b", [("name", "b")])]⟩

/-- Witness for C10: loading with prefix `talos` keeps exactly the two
`talos`-prefixed sections, drops `Options` and `other`, and keeps file
order. -/
theorem load_ini_sections_spec_witness :
    ∃ l, load_ini_sections (some witnessIni) (some "talos") = Except.ok l
      ∧ List.Sublist l witnessIni.sections
      ∧ ("talos_a", [("name", "a")]) ∈ l
      ∧ ¬ ("Options", [("root_dir", "C:/delphi")]) ∈ l
      ∧ ¬ ("other", [("name", "o")]) ∈ l := by
  obtain ⟨l, hl, hsub, hmem⟩ :=
    (load_ini_sections_spec (some witnessIni) (some "talos")).2 witnessIni rfl
  refine ⟨l, hl, hsub, ?_, ?_, ?_⟩
  · exact (hmem _).mpr ⟨by decide, by decide, Or.inr ⟨"talos", rfl, by decide⟩⟩
  · intro hin
    exact absurd ((hmem _).mp hin).2.1 (by decide)
  · intro hin
    rcases ((hmem _).mp hin).2.2 with h | ⟨t, ht, hst⟩
    · exact Option.noConfusion h
    · cases Option.some.inj ht
      exact absurd hst (by decide)

/-! ## C4: simulation invariance of the synchronizer -/

theorem runCmd_false_def (env : Env) (cmd cwd : String) (st : RunState) :
    runCmd env cmd cwd false st = runReal env cmd cwd st := rfl

theorem str_append_assoc (a b c : String) : a ++ b ++ c = a ++ (b ++ c) := by
  cases a with | mk da =>
  cases b with | mk db =>
  cases c with | mk dc =>
  show String.mk (da ++ db ++ dc) = String.mk (da ++ (db ++ dc))
  rw [List.append_assoc]

theorem isMutating_merge_cmd (b : String) :
    isMutating ("git merge --ff-only " ++ b) = true := by
  unfold isMutating
  rw [pyStartsWith_append_of_le _ _ "git merge --ff-only" (by decide)]
  have h1 : pyStartsWith "git merge --ff-only " "git merge --ff-only" = true := by decide
  rw [h1, Bool.true_or]

theorem isMutating_push_cmd (b : String) :
    isMutating ("git push origin " ++ b) = true := by
  unfold isMutating
  rw [pyStartsWith_append_of_le _ _ "git push" (by decide)]
  have h1 : pyStartsWith "git push origin " "git push" = true := by decide
  rw [h1, Bool.or_true]

theorem isMutating_merge_base_cmd (b : String) :
    isMutating ("git merge-base HEAD " ++ b) = false := by
  unfold isMutating
  rw [pyStartsWith_append_of_le _ _ "git merge --ff-only" (by decide),
      pyStartsWith_append_of_le _ _ "git push" (by decide)]
  decide

theorem isMutating_rev_parse_up_cmd (b : String) :
    isMutating ("git rev-parse " ++ ("upstream/" ++ b)) = false := by
  have hassoc : "git rev-parse " ++ ("upstream/" ++ b) = "git rev-parse upstream/" ++ b := by
    rw [← str_append_assoc]
    exact congrArg (fun s => s ++ b) (by decide)
  rw [hassoc]
  unfold isMutating
  rw [pyStartsWith_append_of_le _ _ "git merge --ff-only" (by decide),
      pyStartsWith_append_of_le _ _ "git push" (by decide)]
  decide

/-- Claim C4: for every repository, comparing the run with the simulation
flag set against the run without it (same world): the recorded verdicts
are identical; the dry run actually executes exactly the classification
commands the real run executes (remote listing, branch detection, fetch,
remote-branch listing, merge-base, rev-parse), in the same order; no
mutating command (fast-forward merge, push) is ever executed in the dry
run; and every mutating command the real run executes appears in the dry
run only as a `[DRY-RUN]` log line.  The hypothesis restricts to
repositories whose real run completes without an escaping command
error. -/
theorem syncRepo_simulation_invariance (env : Env) (root_dir : String) (data : RepoData)
    (h : (syncRepo env root_dir data false ⟨[], []⟩).1 = Except.ok ()) :
    (syncRepo env root_dir data true ⟨[], []⟩).2.status
      = (syncRepo env root_dir data false ⟨[], []⟩).2.status
    ∧ execCmds (syncRepo env root_dir data true ⟨[], []⟩).2.events
      = (execCmds (syncRepo env root_dir data false ⟨[], []⟩).2.events).filter
          (fun c => !isMutating c)
    ∧ (execCmds (syncRepo env root_dir data true ⟨[], []⟩).2.events).filter isMutating = []
    ∧ (∀ c, isMutating c = true →
        c ∈ execCmds (syncRepo env root_dir data false ⟨[], []⟩).2.events →
        Event.log ("[DRY-RUN] " ++ c) ∈ (syncRepo env root_dir data true ⟨[], []⟩).2.events) := by
  have hc1 : isMutating "git remote" = false := by decide
  have hc2 : isMutating "git rev-parse --abbrev-ref HEAD" = false := by decide
  have hc3 : isMutating "git fetch upstream" = false := by decide
  have hc4 : isMutating "git branch -r" = false := by decide
  have hc5 : isMutating "git rev-parse HEAD" = false := by decide
  by_cases hfs : env.fs (joinPath root_dir data.folder) = true
  · simp only [syncRepo, hfs, if_true, if_false, runCmd_false_def, runCmd_true_eq, runReal] at h ⊢
    rcases hrem : run "git remote" (env.git "git remote" (joinPath root_dir data.folder)) with e1 | o1 <;>
      simp only [hrem] at h ⊢
    · simp at h
    by_cases hupr : (pySplitlines o1).contains "upstream" = true
    case neg =>
      simp only [hupr, if_false] at h ⊢
      refine ⟨rfl, ?_, ?_, ?_⟩
      · simp [execCmds, emit, addStatus, List.filter, hc1]
      · simp [execCmds, emit, addStatus, List.filter, hc1]
      · intro c hm hcm
        simp [execCmds, emit, addStatus] at hcm
        subst hcm
        rw [hc1] at hm
        exact Bool.noConfusion hm
    case pos =>
      simp only [hupr, if_true] at h ⊢
      rcases hbr : run "git rev-parse --abbrev-ref HEAD"
          (env.git "git rev-parse --abbrev-ref HEAD" (joinPath root_dir data.folder)) with e2 | o2 <;>
        simp only [hbr] at h ⊢
      · simp at h
      set cb := (if o2 = "" then "<dry-run-branch>" else o2) with hcb
      rcases hft : run "git fetch upstream"
          (env.git "git fetch upstream" (joinPath root_dir data.folder)) with e3 | o3 <;>
        simp only [hft] at h ⊢
      · simp at h
      rcases hhd : run "git branch -r"
          (env.git "git branch -r" (joinPath root_dir data.folder)) with e4 | o4 <;>
        simp only [hhd] at h ⊢
      · simp at h
      by_cases hhas2 : strContains o4 ("upstream/" ++ cb) = true
      case neg =>
        simp only [hhas2, if_false] at h ⊢
        refine ⟨rfl, ?_, ?_, ?_⟩
        · simp [execCmds, emit, addStatus, List.filter, hc1, hc2, hc3, hc4]
        · simp [execCmds, emit, addStatus, List.filter, hc1, hc2, hc3, hc4]
        · intro c hm hcm
          simp [execCmds, emit, addStatus] at hcm
          rcases hcm with rfl | rfl | rfl | rfl <;>
            first
              | (rw [hc1] at hm; exact Bool.noConfusion hm)
              | (rw [hc2] at hm; exact Bool.noConfusion hm)
              | (rw [hc3] at hm; exact Bool.noConfusion hm)
              | (rw [hc4] at hm; exact Bool.noConfusion hm)
      case pos =>
        simp only [hhas2, if_true] at h ⊢
        rcases hmb : run ("git merge-base HEAD " ++ ("upstream/" ++ cb))
            (env.git ("git merge-base HEAD " ++ ("upstream/" ++ cb)) (joinPath root_dir data.folder)) with e5 | o5 <;>
          simp only [hmb] at h ⊢
        · simp at h
        rcases hhc : run "git rev-parse HEAD"
            (env.git "git rev-parse HEAD" (joinPath root_dir data.folder)) with e6 | o6 <;>
          simp only [hhc] at h ⊢
        · simp at h
        rcases huc : run ("git rev-parse " ++ ("upstream/" ++ cb))
            (env.git ("git rev-parse " ++ ("upstream/" ++ cb)) (joinPath root_dir data.folder)) with e7 | o7 <;>
          simp only [huc] at h ⊢
        · simp at h
        by_cases hff : o5 = o6
        case pos =>
          simp only [hff, if_true] at h ⊢
          rcases hmg : run ("git merge --ff-only " ++ ("upstream/" ++ cb))
              (env.git ("git merge --ff-only " ++ ("upstream/" ++ cb)) (joinPath root_dir data.folder)) with e8 | o8 <;>
            simp only [hmg] at h ⊢
          · simp at h
          rcases hps : run ("git push origin " ++ cb)
              (env.git ("git push origin " ++ cb) (joinPath root_dir data.folder)) with e9 | o9 <;>
            simp only [hps] at h ⊢
          · simp at h
          refine ⟨rfl, ?_, ?_, ?_⟩
          · simp [execCmds, emit, addStatus, List.filter, hc1, hc2, hc3, hc4, hc5,
              isMutating_merge_base_cmd, isMutating_rev_parse_up_cmd,
              isMutating_merge_cmd, isMutating_push_cmd]
          · simp [execCmds, emit, addStatus, List.filter, hc1, hc2, hc3, hc4, hc5,
              isMutating_merge_base_cmd, isMutating_rev_parse_up_cmd]
          · intro c hm hcm
            simp [execCmds, emit, addStatus] at hcm
            rcases hcm with rfl | rfl | rfl | rfl | rfl | rfl | rfl | rfl | rfl <;>
              first
                | (rw [hc1] at hm; exact Bool.noConfusion hm)
                | (rw [hc2] at hm; exact Bool.noConfusion hm)
                | (rw [hc3] at hm; exact Bool.noConfusion hm)
                | (rw [hc4] at hm; exact Bool.noConfusion hm)
                | (rw [hc5] at hm; exact Bool.noConfusion hm)
                | (rw [isMutating_merge_base_cmd] at hm; exact Bool.noConfusion hm)
                | (rw [isMutating_rev_parse_up_cmd] at hm; exact Bool.noConfusion hm)
                | (simp [emit, addStatus])
        case neg =>
          by_cases hau : o5 = o7
          case pos =>
            have hffb : o7 ≠ o6 := fun hx => hff (hau.trans hx)
            simp only [hff, hau, hffb, if_false, if_true] at h ⊢
            refine ⟨trivial, ?_, ?_, ?_⟩
            · simp [execCmds, emit, addStatus, List.filter, hc1, hc2, hc3, hc4, hc5,
                isMutating_merge_base_cmd, isMutating_rev_parse_up_cmd]
            · simp [execCmds, emit, addStatus, List.filter, hc1, hc2, hc3, hc4, hc5,
                isMutating_merge_base_cmd, isMutating_rev_parse_up_cmd]
            · intro c hm hcm
              simp [execCmds, emit, addStatus] at hcm
              rcases hcm with rfl | rfl | rfl | rfl | rfl | rfl | rfl <;>
                first
                  | (rw [hc1] at hm; exact Bool.noConfusion hm)
                  | (rw [hc2] at hm; exact Bool.noConfusion hm)
                  | (rw [hc3] at hm; exact Bool.noConfusion hm)
                  | (rw [hc4] at hm; exact Bool.noConfusion hm)
                  | (rw [hc5] at hm; exact Bool.noConfusion hm)
                  | (rw [isMutating_merge_base_cmd] at hm; exact Bool.noConfusion hm)
                  | (rw [isMutating_rev_parse_up_cmd] at hm; exact Bool.noConfusion hm)
          case neg =>
            simp only [hff, hau, if_false] at h ⊢
            refine ⟨trivial, ?_, ?_, ?_⟩
            · simp [execCmds, emit, addStatus, List.filter, hc1, hc2, hc3, hc4, hc5,
                isMutating_merge_base_cmd, isMutating_rev_parse_up_cmd]
            · simp [execCmds, emit, addStatus, List.filter, hc1, hc2, hc3, hc4, hc5,
                isMutating_merge_base_cmd, isMutating_rev_parse_up_cmd]
            · intro c hm hcm
              simp [execCmds, emit, addStatus] at hcm
              rcases hcm with rfl | rfl | rfl | rfl | rfl | rfl | rfl <;>
                first
                  | (rw [hc1] at hm; exact Bool.noConfusion hm)
                  | (rw [hc2] at hm; exact Bool.noConfusion hm)
                  | (rw [hc3] at hm; exact Bool.noConfusion hm)
                  | (rw [hc4] at hm; exact Bool.noConfusion hm)
                  | (rw [hc5] at hm; exact Bool.noConfusion hm)
                  | (rw [isMutating_merge_base_cmd] at hm; exact Bool.noConfusion hm)
                  | (rw [isMutating_rev_parse_up_cmd] at hm; exact Bool.noConfusion hm)
  · simp only [syncRepo, hfs, if_false] at h ⊢
    refine ⟨rfl, ?_, ?_, ?_⟩
    · simp [execCmds, emit]
    · simp [execCmds, emit]
    · intro c hm hcm
      simp [execCmds, emit] at hcm

/-- Witness for C4 at the concrete world `ffEnv`, whose real run
fast-forwards successfully. -/
theorem syncRepo_simulation_invariance_witness :
    (syncRepo ffEnv "root" pyRepo true ⟨[], []⟩).2.status
      = (syncRepo ffEnv "root" pyRepo false ⟨[], []⟩).2.status
    ∧ execCmds (syncRepo ffEnv "root" pyRepo true ⟨[], []⟩).2.events
      = (execCmds (syncRepo ffEnv "root" pyRepo false ⟨[], []⟩).2.events).filter
          (fun c => !isMutating c)
    ∧ (execCmds (syncRepo ffEnv "root" pyRepo true ⟨[], []⟩).2.events).filter isMutating = []
    ∧ (∀ c, isMutating c = true →
        c ∈ execCmds (syncRepo ffEnv "root" pyRepo false ⟨[], []⟩).2.events →
        Event.log ("[DRY-RUN] " ++ c) ∈ (syncRepo ffEnv "root" pyRepo true ⟨[], []⟩).2.events) :=
  syncRepo_simulation_invariance ffEnv "root" pyRepo (by decide)
